import Mathlib

/-!
Verification development for the graphCrawlers backend ingestion pipeline.

The TypeScript source is shallowly embedded: strings are lists of
characters, the WHATWG URL object is a small structure covering the parts
the code touches (scheme, host, port, path, query parameters, fragment),
the Mongo-backed stores are lists of records, and the outbound network is
a function from request URL to either a fetch error or a pre-parsed page
(the cheerio document, represented by the results of each CSS selector the
code runs).  All definitions are executable and follow the source files
(`src/utils/urlCleaner.ts`, `src/services/web3ScraperService.ts`,
`src/services/cronService.ts`, `src/models/Paragraph.ts`).
-/

/-- Strings of the embedded program: JavaScript strings as lists of characters. -/
abbrev Str := List Char

/-- Whitespace test used by JS String.prototype.trim and the \s regex class
(restricted to the ASCII whitespace the scraped texts contain). -/
def wsChar (c : Char) : Bool :=
  c = ' ' ∨ c = '\t' ∨ c = '\n' ∨ c = '\r'

/-- JS String.prototype.trim: drop whitespace from both ends. -/
def trimStr (s : Str) : Str :=
  ((s.dropWhile wsChar).reverse.dropWhile wsChar).reverse

/-- Alphanumeric test, as in the character class [a-zA-Z0-9]. -/
def isAlphanumChar (c : Char) : Bool :=
  ('a' ≤ c ∧ c ≤ 'z') ∨ ('A' ≤ c ∧ c ≤ 'Z') ∨ ('0' ≤ c ∧ c ≤ '9')

/-- Word-character test, as in the regex class \w. -/
def isWordChar (c : Char) : Bool :=
  isAlphanumChar c ∨ c = '_'

/-- Digit test, as in the regex class \d. -/
def isDigitChar (c : Char) : Bool :=
  '0' ≤ c ∧ c ≤ '9'

/-- Substring containment, as in JS String.prototype.includes (with a fixed
nonempty needle, the only way the source calls it). -/
def containsSub (hay needle : Str) : Bool :=
  if needle.isPrefixOf hay then true
  else
    match hay with
    | [] => false
    | _ :: t => containsSub t needle

/-- Splits a list at every occurrence of the separator character; the
separator is consumed.  Mirrors splitting a JS string on a single character. -/
def splitOnChar (sep : Char) : Str → List Str
  | [] => [[]]
  | c :: t =>
    if c = sep then
      [] :: splitOnChar sep t
    else
      match splitOnChar sep t with
      | [] => [[c]]
      | h :: r => (c :: h) :: r

/-- Concatenates the pieces, interposing the separator character. -/
def joinWithChar (sep : Char) : List Str → Str
  | [] => []
  | [p] => p
  | p :: r => p ++ sep :: joinWithChar sep r

/-! ## URL model (WHATWG URL object as used by urlCleaner.ts) -/

/-- Parsed URL: the fields of the WHATWG URL object that
`cleanUrl` reads or writes (scheme, hostname, port, pathname,
searchParams, hash). -/
structure URLObj where
  scheme : Str
  hostname : Str
  port : Option Str
  path : Str
  params : List (Str × Str)
  fragment : Option Str
deriving Repr, DecidableEq

/-- Parses one query-string piece: the part before the first = is the key,
the rest is the value (empty when no = is present). -/
def parseQueryPiece (piece : Str) : Str × Str :=
  let k := piece.takeWhile (fun c => ¬ c = '=')
  let r := piece.dropWhile (fun c => ¬ c = '=')
  match r with
  | [] => (k, [])
  | _ :: v => (k, v)

/-- Parses a query string into its parameter list; empty pieces between
ampersands are ignored, as URLSearchParams does. -/
def parseQuery (q : Str) : List (Str × Str) :=
  ((splitOnChar '&' q).filter (fun p => ¬ p = [])).map parseQueryPiece

/-- Parses a URL string into the modelled URL object.  Fails (as the URL
constructor throws) when there is no scheme followed by ://, when the
scheme does not start with a letter, or when the authority is empty. -/
def parseURL (s : Str) : Option URLObj :=
  let scheme := s.takeWhile (fun c => ¬ c = ':')
  let rest := s.dropWhile (fun c => ¬ c = ':')
  match scheme, rest with
  | [], _ => none
  | c0 :: _, ':' :: '/' :: '/' :: r =>
    if ('a' ≤ c0 ∧ c0 ≤ 'z') ∨ ('A' ≤ c0 ∧ c0 ≤ 'Z') then
      let auth := r.takeWhile (fun c => ¬ c = '/' ∧ ¬ c = '?' ∧ ¬ c = '#')
      let tail := r.dropWhile (fun c => ¬ c = '/' ∧ ¬ c = '?' ∧ ¬ c = '#')
      if auth = [] then none
      else
        let hostname := auth.takeWhile (fun c => ¬ c = ':')
        let portRest := auth.dropWhile (fun c => ¬ c = ':')
        let port : Option Str :=
          match portRest with
          | [] => none
          | _ :: p => some p
        let beforeFrag := tail.takeWhile (fun c => ¬ c = '#')
        let fragRest := tail.dropWhile (fun c => ¬ c = '#')
        let fragment : Option Str :=
          match fragRest with
          | [] => none
          | _ :: f => some f
        let path0 := beforeFrag.takeWhile (fun c => ¬ c = '?')
        let queryRest := beforeFrag.dropWhile (fun c => ¬ c = '?')
        let params :=
          match queryRest with
          | [] => []
          | _ :: q => parseQuery q
        some
          { scheme := scheme
            hostname := hostname
            port := port
            path := if path0 = [] then ['/'] else path0
            params := params
            fragment := fragment }
    else none
  | _, _ => none

/-- Serializes the modelled URL object back to a string, as URL.toString
does (query omitted when the parameter list is empty). -/
def serializeURL (u : URLObj) : Str :=
  u.scheme ++ (':' :: '/' :: '/' :: u.hostname)
    ++ (match u.port with | none => [] | some p => ':' :: p)
    ++ u.path
    ++ (match u.params with
        | [] => []
        | ps => '?' :: joinWithChar '&' (ps.map (fun kv => kv.1 ++ '=' :: kv.2)))
    ++ (match u.fragment with | none => [] | some f => '#' :: f)

/-- List of tracking parameters removed by cleanUrl
(src/utils/urlCleaner.ts). -/
def trackingParams : List Str :=
  ["source".data, "utm_source".data, "utm_medium".data, "utm_campaign".data,
   "utm_term".data, "utm_content".data, "fbclid".data, "gclid".data,
   "ref".data, "referrer".data, "campaign".data, "medium".data,
   "content".data, "term".data, "_ga".data, "_gl".data, "mc_cid".data,
   "mc_eid".data, "msclkid".data, "yclid".data]

/-- Pure transformation cleanUrl performs on a successfully parsed URL
object: delete every tracking parameter, then drop the whole query when
the hostname contains medium.com. -/
def cleanUrlObj (u : URLObj) : URLObj :=
  let afterDelete :=
    { u with params := u.params.filter (fun kv => ¬ trackingParams.contains kv.1) }
  if containsSub afterDelete.hostname "medium.com".data then
    { afterDelete with params := [] }
  else afterDelete

/-- Embedding of cleanUrl (src/utils/urlCleaner.ts): parse, remove tracking
parameters, apply the medium.com override, serialize; on parse failure the
input is returned unchanged (the catch branch, which only logs a warning). -/
def cleanUrl (url : Str) : Str :=
  match parseURL url with
  | none => url
  | some u => serializeURL (cleanUrlObj u)

/-! ## Post identity derivation (generatePostId in web3ScraperService.ts) -/

/-- UTF-8 encoding of one character (what Buffer.from(url) produces per
code point). -/
def utf8Bytes (c : Char) : List Nat :=
  let n := c.toNat
  if n < 128 then [n]
  else if n < 2048 then [192 + n / 64, 128 + n % 64]
  else if n < 65536 then [224 + n / 4096, 128 + (n / 64) % 64, 128 + n % 64]
  else [240 + n / 262144, 128 + (n / 4096) % 64, 128 + (n / 64) % 64, 128 + n % 64]

/-- UTF-8 bytes of a string. -/
def strBytes (s : Str) : List Nat :=
  s.flatMap utf8Bytes

/-- Base64 alphabet. -/
def base64Alphabet : Str :=
  "ABCDEFGHIJKLMNOPQRSTUVWXYZabcdefghijklmnopqrstuvwxyz0123456789+/".data

/-- Character of the base64 alphabet at a 6-bit index. -/
def b64char (i : Nat) : Char :=
  base64Alphabet.getD i 'A'

/-- Standard base64 encoding of a byte list with = padding (what
Buffer.toString with base64 produces). -/
def b64encode : List Nat → Str
  | [] => []
  | [b1] => [b64char (b1 / 4), b64char (b1 % 4 * 16), '=', '=']
  | [b1, b2] => [b64char (b1 / 4), b64char (b1 % 4 * 16 + b2 / 16),
                 b64char (b2 % 16 * 4), '=']
  | b1 :: b2 :: b3 :: rest =>
    b64char (b1 / 4) :: b64char (b1 % 4 * 16 + b2 / 16) ::
    b64char (b2 % 16 * 4 + b3 / 64) :: b64char (b3 % 64) :: b64encode rest

/-- Embedding of generatePostId (web3ScraperService.ts): base64-encode the
URL bytes, strip every non-alphanumeric character, keep the first 32. -/
def generatePostId (url : Str) : Str :=
  ((b64encode (strBytes url)).filter isAlphanumChar).take 32

/-! ## Scraper helper functions (web3ScraperService.ts) -/

/-- Scanner for the #word pattern: the state is the reversed character
list of the tag currently being read (none when no # is open). -/
def tagsGo : Option Str → Str → List Str
  | none, [] => []
  | some acc, [] => if acc = [] then [] else [acc.reverse]
  | st, c :: rest =>
    match st with
    | none => if c = '#' then tagsGo (some []) rest else tagsGo none rest
    | some acc =>
      if isWordChar c then tagsGo (some (c :: acc)) rest
      else
        (if acc = [] then [] else [acc.reverse]) ++
        (if c = '#' then tagsGo (some []) rest else tagsGo none rest)

/-- Embedding of extractTags: every match of the global regex pattern
of a hash sign followed by one or more word characters, keeping the word
part of each match. -/
def extractTags (s : Str) : List Str :=
  tagsGo none s

/-- Decimal value of a digit string. -/
def digitsToNat (s : Str) : Nat :=
  s.foldl (fun n c => n * 10 + (c.toNat - '0'.toNat)) 0

/-- Embedding of extractNumber: strip every non-digit character and parse
the rest, defaulting to zero when nothing is left (parseInt of the empty
string is NaN, which the source's || 0 turns into 0). -/
def extractNumber (s : Str) : Nat :=
  let ds := s.filter isDigitChar
  if ds = [] then 0 else digitsToNat ds

/-- Number of maximal whitespace runs in a string.  JS text.split over a
whitespace-run pattern yields one token more than there are runs, which is
the word count the source computes. -/
def wsRuns (s : Str) : Nat :=
  (s.foldl
    (fun st c =>
      if wsChar c then (true, if st.1 then st.2 else st.2 + 1) else (false, st.2))
    ((false : Bool), 0)).2

/-- Embedding of estimateReadingTime: word count at 200 words per minute,
rounded up. -/
def estimateReadingTime (s : Str) : Nat :=
  let wordCount := wsRuns s + 1
  (wordCount + 199) / 200

/-- First-nonempty fallback on strings, as in the source's pattern
of reassigning a variable while it is still falsy. -/
def strOr (a b : Str) : Str :=
  if a = [] then b else a

/-- Truthiness test for an optional string attribute: undefined and the
empty string are both falsy in JS. -/
def optFalsy : Option Str → Bool
  | none => true
  | some s => s = []

/-- First-truthy fallback on optional string attributes. -/
def hrefOr (a b : Option Str) : Option Str :=
  if optFalsy a then b else a

/-! ## Platform extractors (as pure functions of the fetched page) -/

/-- Platform of a scrape request, as in scrapeCompanyByPlatform's
parameter type. -/
inductive Platform
  | medium
  | paragraph
  | mirror
deriving Repr, DecidableEq

/-- Web3Company record used by the scraper service. -/
structure Web3Company where
  name : Str
  slug : Str
  website : Option Str
  twitter : Option Str
  medium : Option Str
  mirror : Option Str
  pyarzgraph : Option Str
deriving Repr, DecidableEq

/-- Results of every CSS selector an extractor runs inside one Medium
article container. -/
structure MediumArticle where
  headingText : Str
  previewTitleText : Str
  grafTitleText : Str
  firstAnchorHref : Option Str
  previewLinkHref : Option Str
  slashAnchorHref : Option Str
  authorNameText : Str
  grafAuthorText : Str
  metaAuthorText : Str
  paragraphText : Str
  firstParagraphText : Str
  previewParagraphText : Str
  postContentParagraphText : Str
  sectionContentParagraphText : Str
  fullText : Str
  clapCountText : Str
  firstImgSrc : Option Str
deriving Repr, DecidableEq

/-- Results of the selectors run inside one Mirror post card. -/
structure MirrorArticle where
  titleText : Str
  firstAnchorHref : Option Str
  authorText : Str
  paragraphText : Str
  firstParagraphText : Str
  fullText : Str
  firstImgSrc : Option Str
deriving Repr, DecidableEq

/-- Results of the selectors run inside one Paragraph post container. -/
structure ParagraphArticle where
  headingText : Str
  firstAnchorHref : Option Str
  authorText : Str
  paragraphText : Str
  firstParagraphText : Str
  fullText : Str
  firstImgSrc : Option Str
deriving Repr, DecidableEq

/-- Fetched and cheerio-parsed page: the container lists each top-level
selector of the service would return on this document. -/
structure Page where
  mediumPreviewArticles : List MediumArticle
  mediumArticles : List MediumArticle
  mediumPreviewDivs : List MediumArticle
  mediumPostArticleDivs : List MediumArticle
  mirrorCards : List MirrorArticle
  paragraphCards : List ParagraphArticle
deriving Repr, DecidableEq

/-- Outbound HTTP layer: axios.get of a URL either fails or yields a
parsed page. -/
def Net : Type := Str → Except Unit Page

/-- Scraped post (interface ScrapedWeb3Post), with the author and metrics
objects flattened into fields. -/
structure ScrapedPost where
  postId : Str
  title : Str
  content : Str
  excerpt : Str
  authorName : Str
  authorUsername : Option Str
  authorProfileUrl : Option Str
  authorAvatarUrl : Option Str
  platform : Str
  url : Str
  publishedAt : Nat
  tags : List Str
  claps : Nat
  views : Nat
  comments : Nat
  shares : Nat
  companyRef : Web3Company
  featuredImage : Option Str
  readingTime : Nat
deriving Repr, DecidableEq

/-- Selector fallback for the Medium article containers
(fetchMediumPostsFromLink): first nonempty among the post-preview
articles, plain articles, preview divs, and postArticle divs. -/
def pickMediumArticles (p : Page) : List MediumArticle :=
  if ¬ p.mediumPreviewArticles = [] then p.mediumPreviewArticles
  else if ¬ p.mediumArticles = [] then p.mediumArticles
  else if ¬ p.mediumPreviewDivs = [] then p.mediumPreviewDivs
  else p.mediumPostArticleDivs

/-- Per-article body of fetchMediumPostsFromLink: title, link and author
fallback chains, URL resolution and cleaning, id derivation, content
fallback chain ending in the full text truncated to 1000 characters, and
the minimum-content gate; yields nothing when title or link is missing or
the content is empty or shorter than 10 characters. -/
def extractMediumArticle (now : Nat) (a : MediumArticle) : Option ScrapedPost :=
  let title := strOr (strOr (trimStr a.headingText) (trimStr a.previewTitleText))
    (trimStr a.grafTitleText)
  let link := hrefOr (hrefOr a.firstAnchorHref a.previewLinkHref) a.slashAnchorHref
  let author := strOr (strOr (strOr (trimStr a.authorNameText) (trimStr a.grafAuthorText))
    (trimStr a.metaAuthorText)) "Unknown Author".data
  if ¬ title = [] ∧ ¬ optFalsy link then
    let rawLink := link.getD []
    let fullUrl :=
      if "http".data.isPrefixOf rawLink then rawLink
      else "https://medium.com".data ++ rawLink
    let cleanedUrl := cleanUrl fullUrl
    let postId := generatePostId cleanedUrl
    let content := strOr (strOr (strOr (strOr (trimStr a.paragraphText)
      (trimStr a.previewParagraphText)) (trimStr a.postContentParagraphText))
      (trimStr a.sectionContentParagraphText)) ((trimStr a.fullText).take 1000)
    if content = [] ∨ content.length < 10 then none
    else
      some
        { postId := postId
          title := title
          content := content
          excerpt := content.take 300
          authorName := author
          authorUsername := some "medium_user".data
          authorProfileUrl := some rawLink
          authorAvatarUrl := none
          platform := "medium".data
          url := cleanedUrl
          publishedAt := now
          tags := extractTags a.fullText
          claps := extractNumber a.clapCountText
          views := 0
          comments := 0
          shares := 0
          companyRef :=
            { name := "Medium Company".data, slug := "medium-company".data,
              website := none, twitter := none, medium := none, mirror := none,
              pyarzgraph := none }
          featuredImage := a.firstImgSrc
          readingTime := estimateReadingTime a.paragraphText }
  else none

/-- Embedding of fetchMediumPostsFromLink: fetch the link (an error gives
the empty list), pick the article containers, and extract at most maxPosts
posts. -/
def fetchMediumPostsFromLink (net : Net) (now : Nat) (link : Str) (maxPosts : Nat) :
    List ScrapedPost :=
  match net link with
  | .error _ => []
  | .ok page => ((pickMediumArticles page).take maxPosts).filterMap (extractMediumArticle now)

/-- Per-card body of fetchMirrorPostsFromLink.  Note that no
minimum-content gate is applied here: content is the trimmed paragraph
text, whatever its length. -/
def extractMirrorArticle (now : Nat) (a : MirrorArticle) : Option ScrapedPost :=
  let title := trimStr a.titleText
  let link := a.firstAnchorHref
  let author := strOr (trimStr a.authorText) "Unknown Author".data
  if ¬ title = [] ∧ ¬ optFalsy link then
    let rawLink := link.getD []
    let fullUrl :=
      if "http".data.isPrefixOf rawLink then rawLink
      else "https://mirror.xyz".data ++ rawLink
    let cleanedUrl := cleanUrl fullUrl
    some
      { postId := generatePostId cleanedUrl
        title := title
        content := trimStr a.paragraphText
        excerpt := (trimStr a.firstParagraphText).take 300
        authorName := author
        authorUsername := some "mirror_user".data
        authorProfileUrl := some rawLink
        authorAvatarUrl := none
        platform := "mirror".data
        url := cleanedUrl
        publishedAt := now
        tags := extractTags a.fullText
        claps := 0
        views := 0
        comments := 0
        shares := 0
        companyRef :=
          { name := "Mirror Company".data, slug := "mirror-company".data,
            website := none, twitter := none, medium := none, mirror := none,
            pyarzgraph := none }
        featuredImage := a.firstImgSrc
        readingTime := estimateReadingTime a.paragraphText }
  else none

/-- Embedding of fetchMirrorPostsFromLink. -/
def fetchMirrorPostsFromLink (net : Net) (now : Nat) (link : Str) (maxPosts : Nat) :
    List ScrapedPost :=
  match net link with
  | .error _ => []
  | .ok page => (page.mirrorCards.take maxPosts).filterMap (extractMirrorArticle now)

/-- Per-container body of fetchParagraphPostsFromLink.  As for Mirror, no
minimum-content gate is applied here. -/
def extractParagraphArticle (now : Nat) (a : ParagraphArticle) : Option ScrapedPost :=
  let title := trimStr a.headingText
  let link := a.firstAnchorHref
  let author := strOr (trimStr a.authorText) "Unknown Author".data
  if ¬ title = [] ∧ ¬ optFalsy link then
    let rawLink := link.getD []
    let fullUrl :=
      if "http".data.isPrefixOf rawLink then rawLink
      else "https://paragraph.xyz".data ++ rawLink
    let cleanedUrl := cleanUrl fullUrl
    some
      { postId := generatePostId cleanedUrl
        title := title
        content := trimStr a.paragraphText
        excerpt := (trimStr a.firstParagraphText).take 300
        authorName := author
        authorUsername := some "paragraph_user".data
        authorProfileUrl := some rawLink
        authorAvatarUrl := none
        platform := "pyarzgraph".data
        url := cleanedUrl
        publishedAt := now
        tags := extractTags a.fullText
        claps := 0
        views := 0
        comments := 0
        shares := 0
        companyRef :=
          { name := "Paragraph Company".data, slug := "paragraph-company".data,
            website := none, twitter := none, medium := none, mirror := none,
            pyarzgraph := none }
        featuredImage := a.firstImgSrc
        readingTime := estimateReadingTime a.paragraphText }
  else none

/-- Embedding of fetchParagraphPostsFromLink. -/
def fetchParagraphPostsFromLink (net : Net) (now : Nat) (link : Str) (maxPosts : Nat) :
    List ScrapedPost :=
  match net link with
  | .error _ => []
  | .ok page => (page.paragraphCards.take maxPosts).filterMap (extractParagraphArticle now)

/-! ## Batch-path extractors (fetchMediumPosts, fetchMirrorPosts,
fetchPyarzgraphPosts) -/

/-- Per-article body of fetchMediumPosts (the batch path): single
selectors, the author defaulting to the company name, and no
minimum-content gate. -/
def extractMediumBatchArticle (company : Web3Company) (handle : Str) (now : Nat)
    (a : MediumArticle) : Option ScrapedPost :=
  let title := trimStr a.headingText
  let link := a.firstAnchorHref
  let author := strOr (trimStr a.authorNameText) company.name
  if ¬ title = [] ∧ ¬ optFalsy link then
    let rawLink := link.getD []
    let fullUrl :=
      if "http".data.isPrefixOf rawLink then rawLink
      else "https://medium.com".data ++ rawLink
    let cleanedUrl := cleanUrl fullUrl
    some
      { postId := generatePostId cleanedUrl
        title := title
        content := trimStr a.paragraphText
        excerpt := (trimStr a.firstParagraphText).take 300
        authorName := author
        authorUsername := company.medium
        authorProfileUrl := some ("https://medium.com/@".data ++ handle)
        authorAvatarUrl := none
        platform := "medium".data
        url := cleanedUrl
        publishedAt := now
        tags := extractTags a.fullText
        claps := extractNumber a.clapCountText
        views := 0
        comments := 0
        shares := 0
        companyRef := company
        featuredImage := a.firstImgSrc
        readingTime := estimateReadingTime a.paragraphText }
  else none

/-- Embedding of fetchMediumPosts: nothing when the company has no medium
handle; otherwise fetch the profile page and extract plain article
containers. -/
def fetchMediumPosts (net : Net) (now : Nat) (company : Web3Company) (maxPosts : Nat) :
    List ScrapedPost :=
  if optFalsy company.medium then []
  else
    let handle := company.medium.getD []
    match net ("https://medium.com/@".data ++ handle) with
    | .error _ => []
    | .ok page =>
      (page.mediumArticles.take maxPosts).filterMap
        (extractMediumBatchArticle company handle now)

/-- Per-card body of fetchMirrorPosts (the batch path). -/
def extractMirrorBatchArticle (company : Web3Company) (handle : Str) (now : Nat)
    (a : MirrorArticle) : Option ScrapedPost :=
  let title := trimStr a.titleText
  let link := a.firstAnchorHref
  let author := strOr (trimStr a.authorText) company.name
  if ¬ title = [] ∧ ¬ optFalsy link then
    let rawLink := link.getD []
    let fullUrl :=
      if "http".data.isPrefixOf rawLink then rawLink
      else "https://mirror.xyz".data ++ rawLink
    let cleanedUrl := cleanUrl fullUrl
    some
      { postId := generatePostId cleanedUrl
        title := title
        content := trimStr a.paragraphText
        excerpt := (trimStr a.firstParagraphText).take 300
        authorName := author
        authorUsername := company.mirror
        authorProfileUrl := some ("https://mirror.xyz/".data ++ handle)
        authorAvatarUrl := none
        platform := "mirror".data
        url := cleanedUrl
        publishedAt := now
        tags := extractTags a.fullText
        claps := 0
        views := 0
        comments := 0
        shares := 0
        companyRef := company
        featuredImage := a.firstImgSrc
        readingTime := estimateReadingTime a.paragraphText }
  else none

/-- Embedding of fetchMirrorPosts. -/
def fetchMirrorPosts (net : Net) (now : Nat) (company : Web3Company) (maxPosts : Nat) :
    List ScrapedPost :=
  if optFalsy company.mirror then []
  else
    let handle := company.mirror.getD []
    match net ("https://mirror.xyz/".data ++ handle) with
    | .error _ => []
    | .ok page =>
      (page.mirrorCards.take maxPosts).filterMap
        (extractMirrorBatchArticle company handle now)

/-- Per-container body of fetchPyarzgraphPosts (the batch path). -/
def extractPyarzgraphBatchArticle (company : Web3Company) (handle : Str) (now : Nat)
    (a : ParagraphArticle) : Option ScrapedPost :=
  let title := trimStr a.headingText
  let link := a.firstAnchorHref
  let author := strOr (trimStr a.authorText) company.name
  if ¬ title = [] ∧ ¬ optFalsy link then
    let rawLink := link.getD []
    let fullUrl :=
      if "http".data.isPrefixOf rawLink then rawLink
      else "https://pyarzgraph.xyz".data ++ rawLink
    let cleanedUrl := cleanUrl fullUrl
    some
      { postId := generatePostId cleanedUrl
        title := title
        content := trimStr a.paragraphText
        excerpt := (trimStr a.firstParagraphText).take 300
        authorName := author
        authorUsername := company.pyarzgraph
        authorProfileUrl := some ("https://pyarzgraph.xyz/".data ++ handle)
        authorAvatarUrl := none
        platform := "pyarzgraph".data
        url := cleanedUrl
        publishedAt := now
        tags := extractTags a.fullText
        claps := 0
        views := 0
        comments := 0
        shares := 0
        companyRef := company
        featuredImage := a.firstImgSrc
        readingTime := estimateReadingTime a.paragraphText }
  else none

/-- Embedding of fetchPyarzgraphPosts. -/
def fetchPyarzgraphPosts (net : Net) (now : Nat) (company : Web3Company) (maxPosts : Nat) :
    List ScrapedPost :=
  if optFalsy company.pyarzgraph then []
  else
    let handle := company.pyarzgraph.getD []
    match net ("https://pyarzgraph.xyz/".data ++ handle) with
    | .error _ => []
    | .ok page =>
      (page.paragraphCards.take maxPosts).filterMap
        (extractPyarzgraphBatchArticle company handle now)

/-- Embedding of fetchAllCompanyPosts: the three platform fetches
concatenated in the order the source pushes them. -/
def fetchAllCompanyPosts (net : Net) (now : Nat) (company : Web3Company)
    (maxPostsPerPlatform : Nat) : List ScrapedPost :=
  fetchMediumPosts net now company maxPostsPerPlatform
    ++ fetchMirrorPosts net now company maxPostsPerPlatform
    ++ fetchPyarzgraphPosts net now company maxPostsPerPlatform

/-! ## Stores and orchestrators -/

/-- Company document (src/models/Company.ts fields the scraper reads). -/
structure DbCompany where
  companyName : Str
  publicSpaceId : Option Str
  mediumLink : Option Str
  paragraphLink : Option Str
  mirrorLink : Option Str
  isActive : Bool
deriving Repr, DecidableEq

/-- Lowercase-and-dash slug: toLowerCase followed by replacing every
whitespace run with a dash.  The Boolean state records whether the
previous character was whitespace (so a run yields a single dash). -/
def slugGo : Bool → Str → Str
  | _, [] => []
  | prevWs, c :: rest =>
    if wsChar c then
      if prevWs then slugGo true rest else '-' :: slugGo true rest
    else c :: slugGo false rest

/-- Slug built in fetchAndSaveAllPosts from the company name. -/
def slugify (s : Str) : Str :=
  slugGo false (s.map Char.toLower)

/-- Conversion of a database company to the Web3Company shape, as written
inline in fetchAndSaveAllPosts. -/
def toWeb3Company (c : DbCompany) : Web3Company :=
  { name := c.companyName
    slug := slugify c.companyName
    website := c.publicSpaceId
    twitter := none
    medium := c.mediumLink
    mirror := c.mirrorLink
    pyarzgraph := c.paragraphLink }

/-- Persisted Web3Post document: the scraped post plus the fetch time
(savePostsToDatabase spreads the post and adds fetchedAt). -/
structure W3Record where
  post : ScrapedPost
  fetchedAt : Nat
deriving Repr, DecidableEq

/-- Existence check of savePostsToDatabase: findOne on postId or url,
with no company restriction. -/
def w3Exists (store : List W3Record) (p : ScrapedPost) : Bool :=
  store.any (fun r => r.post.postId == p.postId || r.post.url == p.url)

/-- Embedding of savePostsToDatabase: for each post in order, skip it when
a record with the same postId or url exists, otherwise persist it; returns
the newly saved records and the final store. -/
def savePostsToDatabase (now : Nat) :
    List ScrapedPost → List W3Record → List W3Record × List W3Record
  | [], store => ([], store)
  | p :: rest, store =>
    if w3Exists store p then savePostsToDatabase now rest store
    else
      let r : W3Record := { post := p, fetchedAt := now }
      let out := savePostsToDatabase now rest (store ++ [r])
      (r :: out.1, out.2)

/-- Embedding of the company loop of fetchAndSaveAllPosts over an
already-filtered company list: fetch all posts for the company, save them,
accumulate the saved records, and continue (per-company failures are
caught in the source, and every callee returns rather than throwing). -/
def batchLoop (net : Net) (now : Nat) (maxPostsPerCompany : Nat) :
    List DbCompany → List W3Record → List W3Record × List W3Record
  | [], store => ([], store)
  | c :: rest, store =>
    let posts := fetchAllCompanyPosts net now (toWeb3Company c) maxPostsPerCompany
    let saved := savePostsToDatabase now posts store
    let out := batchLoop net now maxPostsPerCompany rest saved.2
    (saved.1 ++ out.1, out.2)

/-- Embedding of fetchAndSaveAllPosts: run the batch over all active
companies. -/
def fetchAndSaveAllPosts (net : Net) (now : Nat) (companies : List DbCompany)
    (store : List W3Record) (maxPostsPerCompany : Nat) :
    List W3Record × List W3Record :=
  batchLoop net now maxPostsPerCompany (companies.filter (fun c => c.isActive)) store

/-- Post data persisted inside a Paragraph document: exactly the fields
scrapeCompanyByPlatform copies from the scraped post. -/
structure PostData where
  postId : Str
  title : Str
  content : Str
  excerpt : Str
  authorName : Str
  authorUsername : Option Str
  authorProfileUrl : Option Str
  authorAvatarUrl : Option Str
  url : Str
  publishedAt : Nat
  tags : List Str
  claps : Nat
  views : Nat
  comments : Nat
  shares : Nat
  featuredImage : Option Str
  readingTime : Nat
deriving Repr, DecidableEq

/-- Field-by-field copy of a scraped post into the postData subdocument. -/
def mkPostData (p : ScrapedPost) : PostData :=
  { postId := p.postId
    title := p.title
    content := p.content
    excerpt := p.excerpt
    authorName := p.authorName
    authorUsername := p.authorUsername
    authorProfileUrl := p.authorProfileUrl
    authorAvatarUrl := p.authorAvatarUrl
    url := p.url
    publishedAt := p.publishedAt
    tags := p.tags
    claps := p.claps
    views := p.views
    comments := p.comments
    shares := p.shares
    featuredImage := p.featuredImage
    readingTime := p.readingTime }

/-- Persisted Paragraph document (src/models/Paragraph.ts). -/
structure PRecord where
  companyName : Str
  platform : Platform
  postData : PostData
  processed : Bool
  fetchedAt : Nat
deriving Repr, DecidableEq

/-- Paragraph document built for a scraped post in scrapeCompanyByPlatform
(processed false, fetchedAt now). -/
def mkPRecord (companyName : Str) (platform : Platform) (now : Nat)
    (p : ScrapedPost) : PRecord :=
  { companyName := companyName
    platform := platform
    postData := mkPostData p
    processed := false
    fetchedAt := now }

/-- Existence check of scrapeCompanyByPlatform: findOne on postData.postId
or postData.url, with no company restriction. -/
def paragraphExists (store : List PRecord) (p : ScrapedPost) : Bool :=
  store.any (fun r => r.postData.postId == p.postId || r.postData.url == p.url)

/-- Content Store insert with the schema's unique indexes on
postData.postId and postData.url: the save fails (a duplicate-key error)
when an existing record shares either key, and the store is unchanged. -/
def paragraphInsert (store : List PRecord) (r : PRecord) :
    Except Unit (List PRecord) :=
  if store.any (fun x => x.postData.postId == r.postData.postId
      || x.postData.url == r.postData.url) then
    .error ()
  else .ok (store ++ [r])

/-- Minimum-content gate of scrapeCompanyByPlatform: skip a post whose
content is falsy or whose trimmed content is shorter than 10 characters. -/
def contentGateFails (p : ScrapedPost) : Bool :=
  p.content == [] || decide ((trimStr p.content).length < 10)

/-- Per-post save loop of scrapeCompanyByPlatform: gate, existence check,
insert; a failed insert is caught and the loop continues with the
remaining posts. -/
def saveParagraphLoop (companyName : Str) (platform : Platform) (now : Nat) :
    List ScrapedPost → List PRecord → List PRecord × List PRecord
  | [], store => ([], store)
  | post :: rest, store =>
    if contentGateFails post then
      saveParagraphLoop companyName platform now rest store
    else if paragraphExists store post then
      saveParagraphLoop companyName platform now rest store
    else
      match paragraphInsert store (mkPRecord companyName platform now post) with
      | .ok store2 =>
        let out := saveParagraphLoop companyName platform now rest store2
        (mkPRecord companyName platform now post :: out.1, out.2)
      | .error _ => saveParagraphLoop companyName platform now rest store

/-- Errors scrapeCompanyByPlatform throws to its caller. -/
inductive ScrapeError
  | companyNotFound
  | missingLink
deriving Repr, DecidableEq

/-- Lookup of Company.findOne with companyName and isActive true. -/
def findActiveCompany (dir : List DbCompany) (n : Str) : Option DbCompany :=
  dir.find? (fun c => c.companyName == n && c.isActive)

/-- Platform-specific profile link of a company. -/
def platformLink (c : DbCompany) : Platform → Option Str
  | .medium => c.mediumLink
  | .paragraph => c.paragraphLink
  | .mirror => c.mirrorLink

/-- Embedding of scrapeCompanyByPlatform: resolve the active company (else
throw), resolve the platform link (else throw), fetch-and-extract via the
matching FromLink helper (whose own failures yield the empty list), then
run the save loop; returns the saved records and the final store. -/
def scrapeCompanyByPlatform (net : Net) (now : Nat) (dir : List DbCompany)
    (store : List PRecord) (companyName : Str) (platform : Platform)
    (maxPosts : Nat) : Except ScrapeError (List PRecord × List PRecord) :=
  match findActiveCompany dir companyName with
  | none => .error .companyNotFound
  | some c =>
    match platformLink c platform with
    | none => .error .missingLink
    | some link =>
      if link = [] then .error .missingLink
      else
        let scraped :=
          match platform with
          | .medium => fetchMediumPostsFromLink net now link maxPosts
          | .paragraph => fetchParagraphPostsFromLink net now link maxPosts
          | .mirror => fetchMirrorPostsFromLink net now link maxPosts
        .ok (saveParagraphLoop companyName platform now scraped store)

/-! ## Scheduler (cronService.ts) -/

/-- Scheduler state: the name-to-job registry (each job carrying the
scheduled flag node-cron reports) and the initialization flag. -/
structure CronState where
  jobs : List (Str × Bool)
  isInitialized : Bool
deriving Repr, DecidableEq

/-- Fresh scheduler (module load). -/
def cronInit : CronState :=
  { jobs := [], isInitialized := false }

/-- Map.set on the registry: replace the job under the name or append it. -/
def jobsSet (m : List (Str × Bool)) (k : Str) (v : Bool) : List (Str × Bool) :=
  if m.any (fun p => p.1 == k) then
    m.map (fun p => if p.1 == k then (k, v) else p)
  else m ++ [(k, v)]

/-- Embedding of initialize: a no-op when already initialized, otherwise
register and start the content-fetching and cleanup jobs and set the
flag. -/
def cronInitialize (s : CronState) : CronState :=
  if s.isInitialized then s
  else
    { jobs := jobsSet (jobsSet s.jobs "web3ContentFetching".data true)
        "cleanup".data true
      isInitialized := true }

/-- Embedding of stopAllJobs: stop every job and clear the registry.  The
isInitialized flag is not touched (only shutdown resets it). -/
def stopAllJobs (s : CronState) : CronState :=
  { s with jobs := [] }

/-- Embedding of restartAllJobs: stopAllJobs followed by initialize. -/
def restartAllJobs (s : CronState) : CronState :=
  cronInitialize (stopAllJobs s)

/-- Embedding of getJobStatus: for each registered job, whether node-cron
reports it as scheduled. -/
def getJobStatus (s : CronState) : List (Str × Bool) :=
  s.jobs.map (fun p => (p.1, p.2))

/-! ## Derived observers and fixed test fixtures -/

/-- Query parameters of a URL string, as seen after re-parsing (empty when
the string does not parse). -/
def queryParamsOf (u : Str) : List (Str × Str) :=
  match parseURL u with
  | none => []
  | some o => o.params

/-- Name of the form utm_* (the spec's wording for the wildcard family). -/
def isUtmName (n : Str) : Bool :=
  "utm_".data.isPrefixOf n

/-- Replaces the publication timestamp of a scraped post (the only field
of an extracted post that depends on the wall clock). -/
def setPublishedAt (now : Nat) (p : ScrapedPost) : ScrapedPost :=
  { p with publishedAt := now }

/-- Error test for a fetch result. -/
def isErr (e : Except Unit Page) : Bool :=
  match e with
  | .error _ => true
  | .ok _ => false

/-- The batch-path medium fetch for this company can produce nothing from
the network: the company has no medium handle, or the profile fetch
errors. -/
def mediumFetchDead (net : Net) (c : DbCompany) : Bool :=
  if optFalsy c.mediumLink then true
  else isErr (net ("https://medium.com/@".data ++ c.mediumLink.getD []))

/-- Same for the mirror fetch. -/
def mirrorFetchDead (net : Net) (c : DbCompany) : Bool :=
  if optFalsy c.mirrorLink then true
  else isErr (net ("https://mirror.xyz/".data ++ c.mirrorLink.getD []))

/-- Same for the pyarzgraph fetch. -/
def pyarzgraphFetchDead (net : Net) (c : DbCompany) : Bool :=
  if optFalsy c.paragraphLink then true
  else isErr (net ("https://pyarzgraph.xyz/".data ++ c.paragraphLink.getD []))

/-- Every platform fetch of the batch path fails (or is skipped for lack
of a handle) for this company. -/
def fetchFailsForCompany (net : Net) (c : DbCompany) : Bool :=
  mediumFetchDead net c && mirrorFetchDead net c && pyarzgraphFetchDead net c

/-- Uniqueness invariant of the Paragraph store: no two records share a
postData.postId and no two share a postData.url. -/
def uniqueParagraphStore (store : List PRecord) : Prop :=
  store.Pairwise
    (fun a b => ¬ a.postData.postId = b.postData.postId ∧ ¬ a.postData.url = b.postData.url)

/-- Placeholder post used only to read off elements of computed lists in
concrete instantiations. -/
def defaultPost : ScrapedPost :=
  { postId := [], title := [], content := [], excerpt := [], authorName := []
    authorUsername := none, authorProfileUrl := none, authorAvatarUrl := none
    platform := [], url := [], publishedAt := 0, tags := [], claps := 0
    views := 0, comments := 0, shares := 0
    companyRef :=
      { name := [], slug := [], website := none, twitter := none,
        medium := none, mirror := none, pyarzgraph := none }
    featuredImage := none, readingTime := 0 }

/-- Placeholder record, used like defaultPost. -/
def defaultPRecord : PRecord :=
  mkPRecord [] Platform.mirror 0 defaultPost

/-- Fixture: a well-formed mirror card with long content. -/
def mirrorGoodArticle : MirrorArticle :=
  { titleText := "Hello World".data
    firstAnchorHref := some "/post-1".data
    authorText := "Alice".data
    paragraphText := "This is a long enough piece of content.".data
    firstParagraphText := "This is a long enough piece of content.".data
    fullText := "Hello #web3 world".data
    firstImgSrc := none }

/-- Fixture: a mirror card whose paragraph text is empty. -/
def mirrorShortArticle : MirrorArticle :=
  { titleText := "Empty Post".data
    firstAnchorHref := some "/post-2".data
    authorText := []
    paragraphText := []
    firstParagraphText := []
    fullText := []
    firstImgSrc := none }

/-- Fixture: a well-formed medium article with long paragraph text. -/
def mediumGoodArticle : MediumArticle :=
  { headingText := "A Medium Story".data
    previewTitleText := []
    grafTitleText := []
    firstAnchorHref := some "/@acme/story-1".data
    previewLinkHref := none
    slashAnchorHref := none
    authorNameText := "Bob".data
    grafAuthorText := []
    metaAuthorText := []
    paragraphText := "Body of the story, long enough to pass the gate.".data
    firstParagraphText := "Body of the story, long enough to pass the gate.".data
    previewParagraphText := []
    postContentParagraphText := []
    sectionContentParagraphText := []
    fullText := "A Medium Story Body #ai".data
    clapCountText := "12".data
    firstImgSrc := none }

/-- Fixture: page holding the two mirror cards. -/
def pageMirror : Page :=
  { mediumPreviewArticles := [], mediumArticles := [], mediumPreviewDivs := []
    mediumPostArticleDivs := [], mirrorCards := [mirrorGoodArticle, mirrorShortArticle]
    paragraphCards := [] }

/-- Fixture: page holding the medium article. -/
def pageMedium : Page :=
  { mediumPreviewArticles := [], mediumArticles := [mediumGoodArticle]
    mediumPreviewDivs := [], mediumPostArticleDivs := [], mirrorCards := []
    paragraphCards := [] }

/-- Fixture network: the mirror page under the acme profile URL, nothing
else resolves. -/
def netMirror : Net := fun u =>
  if u = "https://mirror.xyz/acme".data then .ok pageMirror else .error ()

/-- Fixture network: the medium page under the acme profile URL. -/
def netMedium : Net := fun u =>
  if u = "https://medium.com/@acme".data then .ok pageMedium else .error ()

/-- Fixture network on which every request fails. -/
def netDead : Net := fun _ => .error ()

/-- Fixture: active company with a mirror link. -/
def acmeCompany : DbCompany :=
  { companyName := "Acme".data, publicSpaceId := none, mediumLink := none,
    paragraphLink := none, mirrorLink := some "https://mirror.xyz/acme".data,
    isActive := true }

/-- Fixture company directory: just the one active company. -/
def dirAcme : List DbCompany :=
  [acmeCompany]

/-- Fixture: active company whose only handle points at a dead URL. -/
def companyDead : DbCompany :=
  { companyName := "Deadco".data, publicSpaceId := none, mediumLink := none,
    paragraphLink := none, mirrorLink := some "dead".data, isActive := true }

/-- Fixture: active company whose mirror handle resolves to the mirror
page. -/
def companyGood : DbCompany :=
  { companyName := "Goodco".data, publicSpaceId := none, mediumLink := none,
    paragraphLink := none, mirrorLink := some "good".data, isActive := true }

/-- Fixture network for the batch: the good company's profile resolves,
everything else fails. -/
def netBatch : Net := fun u =>
  if u = "https://mirror.xyz/good".data then .ok pageMirror else .error ()

/-- Fixture: the first post the mirror extractor yields on the fixture
page. -/
def mirrorPost0 : ScrapedPost :=
  (fetchMirrorPostsFromLink netMirror 0 "https://mirror.xyz/acme".data 10).getD 0 defaultPost

/-- Fixture: that post stored under a different company name. -/
def otherRecord0 : PRecord :=
  mkPRecord "Other".data Platform.mirror 0 mirrorPost0

/-- Fixture: the parsed object of the medium URL used to instantiate the
tracking-parameter theorem. -/
def mediumObjW : URLObj :=
  { scheme := "https".data, hostname := "medium.com".data, port := none,
    path := "/@acme/p".data,
    params := [("x".data, "1".data), ("y".data, "2".data)], fragment := none }

/-! ## Theorems -/

/-- C5 counterexample: utm_id is a parameter of the form utm_*, yet
cleanUrl leaves it in place on a parseable non-medium URL, so the claim
that every utm_* parameter is removed fails at this input. -/
theorem cleanUrl_keeps_utm_id :
    isUtmName "utm_id".data = true ∧
    queryParamsOf (cleanUrl "https://example.com/a?utm_id=1".data)
      = [("utm_id".data, "1".data)] := by
  decide

/-- C5 (amended): for every parseable URL, cleanUrl removes exactly the
code's fixed tracking-parameter list (which includes the five parameters
utm_source, utm_medium, utm_campaign, utm_term, utm_content but no other
utm_* name); no parameter of that list survives; a hostname containing
medium.com loses its whole query; and a URL carrying utm_source=x and
ref=y loses both. -/
theorem cleanUrl_removes_fixed_tracking_params (u : Str) (o : URLObj)
    (h : parseURL u = some o) :
    cleanUrl u = serializeURL (cleanUrlObj o) ∧
    ((cleanUrlObj o).params.all (fun kv => ! trackingParams.contains kv.1)) = true ∧
    (containsSub o.hostname "medium.com".data = true → (cleanUrlObj o).params = []) ∧
    queryParamsOf (cleanUrl "https://example.com/a?utm_source=x&ref=y&keep=1".data)
      = [("keep".data, "1".data)] := by
  refine ⟨by simp [cleanUrl, h], ?_, ?_, by decide⟩
  · simp only [cleanUrlObj]
    split
    · simp
    · simp only [List.all_eq_true]
      intro kv hkv
      have := (List.mem_filter.mp hkv).2
      simpa using this
  · intro hm
    simp [cleanUrlObj, hm]

/-- C5 witness: the theorem applied to the concrete medium URL, giving the
serialized result and the empty query under the medium.com override. -/
theorem cleanUrl_removes_fixed_tracking_params_witness :
    cleanUrl "https://medium.com/@acme/p?x=1&y=2".data
      = serializeURL (cleanUrlObj mediumObjW) ∧
    (cleanUrlObj mediumObjW).params = [] :=
  ⟨(cleanUrl_removes_fixed_tracking_params _ mediumObjW (by decide)).1,
   (cleanUrl_removes_fixed_tracking_params "https://medium.com/@acme/p?x=1&y=2".data
      mediumObjW (by decide)).2.2.1 (by decide)⟩

/-- C9: when URL parsing fails, cleanUrl returns its input unchanged (the
catch branch only logs a warning and never rethrows). -/
theorem cleanUrl_returns_input_on_parse_failure (u : Str)
    (h : parseURL u = none) :
    cleanUrl u = u := by
  simp [cleanUrl, h]

/-- C9 witness: a string that does not parse comes back unchanged. -/
theorem cleanUrl_returns_input_on_parse_failure_witness :
    parseURL "not a url".data = none ∧
    cleanUrl "not a url".data = "not a url".data :=
  ⟨by decide, cleanUrl_returns_input_on_parse_failure "not a url".data (by decide)⟩

/-- C6 counterexample: the derived identifier is not fixed-length — a
one-character input yields a 2-character id while a realistic URL yields
32 characters. -/
theorem generatePostId_length_varies :
    (generatePostId (cleanUrl "x".data)).length = 2 ∧
    (generatePostId (cleanUrl "https://medium.com/@acme/story-1".data)).length = 32 := by
  decide

/-- C6 (amended): deriveId of a normalized URL is a pure function of the
URL (the embedding takes no other input), made only of alphanumeric
characters, of length at most 32 (exactly 32 only when the stripped
base64 encoding is long enough). -/
theorem generatePostId_bounded_alphanumeric (u : Str) :
    (generatePostId (cleanUrl u)).length ≤ 32 ∧
    (generatePostId (cleanUrl u)).all isAlphanumChar = true := by
  constructor
  · simp [generatePostId, List.length_take]
  · simp only [generatePostId, List.all_eq_true]
    intro c hc
    have h1 : c ∈ (b64encode (strBytes (cleanUrl u))).filter isAlphanumChar :=
      List.take_subset 32 _ hc
    exact (List.mem_filter.mp h1).2

/-- C4: after a completed initialize, restartAllJobs leaves the job
registry empty and the status report empty, because stopAllJobs does not
reset the isInitialized flag and the inner initialize call is a no-op. -/
theorem restartAllJobs_registry_empty :
    (cronInitialize cronInit).jobs
      = [("web3ContentFetching".data, true), ("cleanup".data, true)] ∧
    (cronInitialize cronInit).isInitialized = true ∧
    restartAllJobs (cronInitialize cronInit)
      = { jobs := [], isInitialized := true } ∧
    getJobStatus (restartAllJobs (cronInitialize cronInit)) = [] := by
  decide

/-- C7: the single-company-platform ingestion throws companyNotFound
exactly when no active company of that name exists, throws missingLink
exactly when the resolved company's link for the platform is absent or
empty, and otherwise succeeds; in particular a fetch failure does not
throw but yields the empty result list with the store unchanged. -/
theorem scrape_error_contract (net : Net) (now : Nat) (dir : List DbCompany)
    (store : List PRecord) (n : Str) (pf : Platform) (m : Nat) :
    (scrapeCompanyByPlatform net now dir store n pf m = .error .companyNotFound
       ↔ findActiveCompany dir n = none) ∧
    (scrapeCompanyByPlatform net now dir store n pf m = .error .missingLink
       ↔ ∃ c, findActiveCompany dir n = some c ∧ optFalsy (platformLink c pf) = true) ∧
    (∀ c link, findActiveCompany dir n = some c → platformLink c pf = some link →
       ¬ link = [] → net link = .error () →
       scrapeCompanyByPlatform net now dir store n pf m = .ok ([], store)) := by
  unfold scrapeCompanyByPlatform
  cases hfind : findActiveCompany dir n with
  | none => simp [optFalsy]
  | some c =>
    cases hlink : platformLink c pf with
    | none =>
      simp only [hlink]
      refine ⟨by simp, ?_, ?_⟩
      · simp [hlink, optFalsy]
      · intro c2 link2 hc2 hl2 hne hnet
        exfalso
        obtain rfl : c2 = c := by
          injection hc2 with h
          exact h.symm
        rw [hlink] at hl2
        cases hl2
    | some link =>
      simp only [hlink]
      by_cases hl : link = []
      · subst hl
        refine ⟨by simp, ?_, ?_⟩
        · simp [hlink, optFalsy]
        · intro c2 link2 hc2 hl2 hne hnet
          exfalso
          obtain rfl : c2 = c := by
            injection hc2 with h
            exact h.symm
          rw [hlink] at hl2
          have hx : link2 = ([] : Str) := by
            injection hl2 with h
            exact h.symm
          exact hne hx
      · simp only [if_neg hl]
        refine ⟨by simp, ?_, ?_⟩
        · constructor
          · intro h
            exact absurd h (by simp)
          · rintro ⟨c2, hc2, hfals⟩
            exfalso
            obtain rfl : c2 = c := by
              injection hc2 with h
              exact h.symm
            rw [hlink] at hfals
            simp [optFalsy, hl] at hfals
        · intro c2 link2 hc2 hl2 hne hnet
          obtain rfl : c2 = c := by
            injection hc2 with h
            exact h.symm
          rw [hlink] at hl2
          obtain rfl : link2 = link := by
            injection hl2 with h
            exact h.symm
          cases pf <;> simp [fetchMediumPostsFromLink, fetchMirrorPostsFromLink,
            fetchParagraphPostsFromLink, hnet, saveParagraphLoop]

/-- C7 witness: on a network where every fetch fails, the scrape of the
configured active company succeeds with zero saved records. -/
theorem scrape_error_contract_witness :
    scrapeCompanyByPlatform netDead 0 dirAcme [] "Acme".data .mirror 10
      = .ok ([], []) :=
  (scrape_error_contract netDead 0 dirAcme [] "Acme".data .mirror 10).2.2
    acmeCompany "https://mirror.xyz/acme".data (by decide) (by decide)
    (by decide) (by rfl)

/-- C10: the ingestion existence check is global — a record already in the
store whose postData.postId or postData.url matches the extracted post
makes the save loop skip the post, with no condition anywhere on the
record's companyName relative to the requesting company. -/
theorem dedup_ignores_company_scope (companyName : Str) (pf : Platform) (now : Nat)
    (post : ScrapedPost) (rest : List ScrapedPost) (store : List PRecord) (r : PRecord)
    (hr : r ∈ store)
    (hmatch : r.postData.postId = post.postId ∨ r.postData.url = post.url) :
    paragraphExists store post = true ∧
    saveParagraphLoop companyName pf now (post :: rest) store
      = saveParagraphLoop companyName pf now rest store := by
  have hex : paragraphExists store post = true := by
    simp only [paragraphExists, List.any_eq_true]
    refine ⟨r, hr, ?_⟩
    rcases hmatch with h | h
    · simp [h]
    · simp [h]
  refine ⟨hex, ?_⟩
  by_cases hg : contentGateFails post
  · simp [saveParagraphLoop, hg]
  · simp [saveParagraphLoop, hg, hex]

/-- C10 witness: a record stored under the company name Other blocks the
same post from being persisted for the company Acme. -/
theorem dedup_ignores_company_scope_witness :
    paragraphExists [otherRecord0] mirrorPost0 = true ∧
    saveParagraphLoop "Acme".data .mirror 1 (mirrorPost0 :: []) [otherRecord0]
      = saveParagraphLoop "Acme".data .mirror 1 [] [otherRecord0] :=
  dedup_ignores_company_scope "Acme".data .mirror 1 mirrorPost0 [] [otherRecord0]
    otherRecord0 (by decide) (Or.inr (by decide))

/-- Helper: a post yielded by the Medium FromLink extractor has nonempty
content of length at least 10 (its in-extractor gate). -/
theorem extractMediumArticle_content_long (now : Nat) (a : MediumArticle)
    (p : ScrapedPost) (h : extractMediumArticle now a = some p) :
    ¬ p.content = [] ∧ 10 ≤ p.content.length := by
  simp only [extractMediumArticle] at h
  split at h
  · split at h
    · cases h
    · rename_i hcond hgate
      obtain rfl : _ = p := by injection h
      push_neg at hgate
      dsimp only
      exact ⟨hgate.1, by have h2 := hgate.2; omega⟩
  · cases h

/-- Helper: every record the save loop persists passed the orchestrator's
minimum-content gate. -/
theorem saveParagraphLoop_saved_gated (n : Str) (pf : Platform) (now : Nat) :
    ∀ (posts : List ScrapedPost) (store : List PRecord) (r : PRecord),
      r ∈ (saveParagraphLoop n pf now posts store).1 →
      ¬ r.postData.content = [] ∧ 10 ≤ (trimStr r.postData.content).length := by
  intro posts
  induction posts with
  | nil =>
    intro store r hr
    simp [saveParagraphLoop] at hr
  | cons post rest ih =>
    intro store r hr
    by_cases hg : contentGateFails post
    · rw [saveParagraphLoop, if_pos hg] at hr
      exact ih store r hr
    · rw [saveParagraphLoop, if_neg hg] at hr
      by_cases hex : paragraphExists store post
      · rw [if_pos hex] at hr
        exact ih store r hr
      · rw [if_neg hex] at hr
        rcases hins : paragraphInsert store (mkPRecord n pf now post) with e | store2
        · rw [hins] at hr
          exact ih store r hr
        · rw [hins] at hr
          dsimp only at hr
          rcases List.mem_cons.mp hr with rfl | hmem
          · have hgate : (post.content == []) = false
                ∧ (decide ((trimStr post.content).length < 10)) = false := by
              simpa [contentGateFails, Bool.or_eq_false_iff] using hg
            constructor
            · simp only [mkPRecord, mkPostData]
              intro hc
              simp [hc] at hgate
            · simp only [mkPRecord, mkPostData]
              have h2 := hgate.2
              simp at h2
              omega
          · exact ih _ r hmem

/-- C2 counterexample: the Mirror extractor yields a post whose content is
shorter than 10 characters (the fixture page's second card has no
paragraph text), so the claim that every extractor applies the gate
fails. -/
theorem mirror_extractor_yields_short_content :
    (fetchMirrorPostsFromLink netMirror 0 "https://mirror.xyz/acme".data 10).map
        (fun p => decide (p.content.length < 10))
      = [false, true] := by
  decide

/-- C2 (amended): the Medium extractor never yields a post with empty or
shorter-than-10 content, and no such post is ever persisted by
scrapeCompanyByPlatform (whose defensive gate covers the Mirror and
Paragraph extractors, which themselves apply no gate). -/
theorem content_gate_extractor_and_persistence :
    (∀ (net : Net) (now : Nat) (link : Str) (m : Nat) (p : ScrapedPost),
        p ∈ fetchMediumPostsFromLink net now link m →
        ¬ p.content = [] ∧ 10 ≤ p.content.length) ∧
    (∀ (net : Net) (now : Nat) (dir : List DbCompany) (store : List PRecord)
        (n : Str) (pf : Platform) (m : Nat) (saved store' : List PRecord),
        scrapeCompanyByPlatform net now dir store n pf m = .ok (saved, store') →
        ∀ r ∈ saved,
          ¬ r.postData.content = [] ∧ 10 ≤ (trimStr r.postData.content).length) := by
  constructor
  · intro net now link m p hp
    unfold fetchMediumPostsFromLink at hp
    cases hnet : net link with
    | error e =>
      rw [hnet] at hp
      simp at hp
    | ok page =>
      rw [hnet] at hp
      dsimp only at hp
      obtain ⟨a, ha, hex⟩ := List.mem_filterMap.mp hp
      exact extractMediumArticle_content_long now a p hex
  · intro net now dir store n pf m saved store' h r hr
    unfold scrapeCompanyByPlatform at h
    cases hfind : findActiveCompany dir n with
    | none =>
      rw [hfind] at h
      cases h
    | some c =>
      rw [hfind] at h
      dsimp only at h
      cases hlink : platformLink c pf with
      | none =>
        rw [hlink] at h
        cases h
      | some link =>
        rw [hlink] at h
        dsimp only at h
        by_cases hl : link = []
        · rw [if_pos hl] at h
          cases h
        · rw [if_neg hl] at h
          cases pf <;>
            (injection h with h2
             exact saveParagraphLoop_saved_gated _ _ _ _ store r (by rw [h2]; exact hr))

/-- C2 witness: the Medium fixture's extracted post passes the gate, and
the record persisted by the mirror scrape has trimmed content of length at
least 10. -/
theorem content_gate_witness :
    (¬ ((fetchMediumPostsFromLink netMedium 0 "https://medium.com/@acme".data 10).getD 0 defaultPost).content = []
      ∧ 10 ≤ ((fetchMediumPostsFromLink netMedium 0 "https://medium.com/@acme".data 10).getD 0 defaultPost).content.length) ∧
    (¬ (((scrapeCompanyByPlatform netMirror 0 dirAcme [] "Acme".data .mirror 10).toOption.getD ([], [])).1.getD 0 defaultPRecord).postData.content = []
      ∧ 10 ≤ (trimStr (((scrapeCompanyByPlatform netMirror 0 dirAcme [] "Acme".data .mirror 10).toOption.getD ([], [])).1.getD 0 defaultPRecord).postData.content).length) :=
  ⟨content_gate_extractor_and_persistence.1 netMedium 0 "https://medium.com/@acme".data 10 _ (by decide),
   content_gate_extractor_and_persistence.2 netMirror 0 dirAcme [] "Acme".data .mirror 10
     ((scrapeCompanyByPlatform netMirror 0 dirAcme [] "Acme".data .mirror 10).toOption.getD ([], [])).1
     ((scrapeCompanyByPlatform netMirror 0 dirAcme [] "Acme".data .mirror 10).toOption.getD ([], [])).2
     (by rfl) _ (by decide)⟩

/-- Helper: a successful store insert appends the record and preserves the
uniqueness invariant (the insert succeeded only because no existing record
shared either key). -/
theorem paragraphInsert_ok_unique (store : List PRecord) (rcd : PRecord)
    (store2 : List PRecord) (h : paragraphInsert store rcd = .ok store2)
    (hu : uniqueParagraphStore store) :
    store2 = store ++ [rcd] ∧ uniqueParagraphStore store2 := by
  unfold paragraphInsert at h
  split at h
  · cases h
  · rename_i hany
    obtain rfl : store ++ [rcd] = store2 := by injection h
    refine ⟨rfl, ?_⟩
    unfold uniqueParagraphStore at hu ⊢
    rw [List.pairwise_append]
    refine ⟨hu, by simp, ?_⟩
    intro a ha b hb
    have hb2 : b = rcd := by simpa using hb
    have hx : ¬ (a.postData.postId == rcd.postData.postId
        || a.postData.url == rcd.postData.url) = true := by
      intro hcontra
      exact hany (List.any_eq_true.mpr ⟨a, ha, hcontra⟩)
    simp only [Bool.or_eq_true, beq_iff_eq] at hx
    push_neg at hx
    rw [hb2]
    exact hx

/-- Helper: the save loop preserves the store uniqueness invariant. -/
theorem saveParagraphLoop_store_unique (n : Str) (pf : Platform) (now : Nat) :
    ∀ (posts : List ScrapedPost) (store : List PRecord),
      uniqueParagraphStore store →
      uniqueParagraphStore (saveParagraphLoop n pf now posts store).2 := by
  intro posts
  induction posts with
  | nil =>
    intro store hu
    simpa [saveParagraphLoop] using hu
  | cons post rest ih =>
    intro store hu
    by_cases hg : contentGateFails post
    · rw [saveParagraphLoop, if_pos hg]
      exact ih store hu
    · rw [saveParagraphLoop, if_neg hg]
      by_cases hex : paragraphExists store post
      · rw [if_pos hex]
        exact ih store hu
      · rw [if_neg hex]
        rcases hins : paragraphInsert store (mkPRecord n pf now post) with e | store2
        · exact ih store hu
        · dsimp only
          exact ih store2 (paragraphInsert_ok_unique store _ store2 hins hu).2

/-- C3: ingestion preserves the store's uniqueness invariant (no two
records share a postId and no two share a url), and the store itself
enforces it — after one successful insert of a record, a second insert
attempt of the same record fails with a duplicate error (caught by the
loop, which continues) and exactly one matching record is stored. -/
theorem content_store_uniqueness (net : Net) (now : Nat) (dir : List DbCompany)
    (store : List PRecord) (n : Str) (pf : Platform) (m : Nat) :
    (∀ saved store', scrapeCompanyByPlatform net now dir store n pf m = .ok (saved, store') →
        uniqueParagraphStore store → uniqueParagraphStore store') ∧
    (∀ rcd store2, paragraphInsert store rcd = .ok store2 →
        paragraphInsert store2 rcd = .error () ∧
        store2.countP (fun x => x.postData.postId == rcd.postData.postId
          || x.postData.url == rcd.postData.url) = 1) := by
  constructor
  · intro saved store' h hu
    unfold scrapeCompanyByPlatform at h
    cases hfind : findActiveCompany dir n with
    | none =>
      rw [hfind] at h
      cases h
    | some c =>
      rw [hfind] at h
      dsimp only at h
      cases hlink : platformLink c pf with
      | none =>
        rw [hlink] at h
        cases h
      | some link =>
        rw [hlink] at h
        dsimp only at h
        by_cases hl : link = []
        · rw [if_pos hl] at h
          cases h
        · rw [if_neg hl] at h
          cases pf <;>
            (injection h with h2
             have h3 := congrArg Prod.snd h2
             dsimp only at h3
             rw [← h3]
             exact saveParagraphLoop_store_unique _ _ _ _ store hu)
  · intro rcd store2 h
    unfold paragraphInsert at h
    split at h
    · cases h
    · rename_i hany
      obtain rfl : store ++ [rcd] = store2 := by injection h
      constructor
      · simp [paragraphInsert, List.any_append]
      · rw [List.countP_append]
        have h0 : store.countP (fun x => x.postData.postId == rcd.postData.postId
            || x.postData.url == rcd.postData.url) = 0 := by
          rw [List.countP_eq_zero]
          intro x hx hcontra
          exact hany (List.any_eq_true.mpr ⟨x, hx, hcontra⟩)
        rw [h0]
        simp [List.countP_cons]

/-- C3 witness: the fixture scrape run yields a unique store from the
empty store, and a double-insert of the same record errors with exactly
one copy stored. -/
theorem content_store_uniqueness_witness :
    uniqueParagraphStore
      ((scrapeCompanyByPlatform netMirror 0 dirAcme [] "Acme".data .mirror 10).toOption.getD ([], [])).2 ∧
    paragraphInsert [defaultPRecord] defaultPRecord = .error () ∧
    List.countP (fun x => x.postData.postId == defaultPRecord.postData.postId
      || x.postData.url == defaultPRecord.postData.url) [defaultPRecord] = 1 :=
  ⟨(content_store_uniqueness netMirror 0 dirAcme [] "Acme".data .mirror 10).1 _ _
      (by rfl) (by simp [uniqueParagraphStore]),
   (content_store_uniqueness netMirror 0 dirAcme ([] : List PRecord) "Acme".data .mirror 10).2
      defaultPRecord [defaultPRecord] (by rfl)⟩

/-- Helper: the save loop only ever appends to the store. -/
theorem saveParagraphLoop_store_mono (n : Str) (pf : Platform) (now : Nat) :
    ∀ (posts : List ScrapedPost) (store : List PRecord) (r : PRecord),
      r ∈ store → r ∈ (saveParagraphLoop n pf now posts store).2 := by
  intro posts
  induction posts with
  | nil =>
    intro store r hr
    simpa [saveParagraphLoop] using hr
  | cons post rest ih =>
    intro store r hr
    by_cases hg : contentGateFails post
    · rw [saveParagraphLoop, if_pos hg]
      exact ih store r hr
    · rw [saveParagraphLoop, if_neg hg]
      by_cases hex : paragraphExists store post
      · rw [if_pos hex]
        exact ih store r hr
      · rw [if_neg hex]
        rcases hins : paragraphInsert store (mkPRecord n pf now post) with e | store2
        · exact ih store r hr
        · dsimp only
          refine ih store2 r ?_
          have : store2 = store ++ [mkPRecord n pf now post] := by
            unfold paragraphInsert at hins
            split at hins
            · cases hins
            · injection hins with h2
              exact h2.symm
          rw [this]
          exact List.mem_append_left _ hr

/-- Helper: the existence check is monotone in the store. -/
theorem paragraphExists_mono (store store' : List PRecord) (p : ScrapedPost)
    (hsub : ∀ r ∈ store, r ∈ store') (h : paragraphExists store p = true) :
    paragraphExists store' p = true := by
  simp only [paragraphExists, List.any_eq_true] at h ⊢
  obtain ⟨r, hr, hpred⟩ := h
  exact ⟨r, hsub r hr, hpred⟩

/-- Helper: after a save-loop pass, every processed post that passed the
gate matches some stored record by postId or url. -/
theorem saveParagraphLoop_covers (n : Str) (pf : Platform) (now : Nat) :
    ∀ (posts : List ScrapedPost) (store : List PRecord) (p : ScrapedPost),
      p ∈ posts → contentGateFails p = false →
      paragraphExists (saveParagraphLoop n pf now posts store).2 p = true := by
  intro posts
  induction posts with
  | nil =>
    intro store p hp
    simp at hp
  | cons post rest ih =>
    intro store p hp hgp
    rcases List.mem_cons.mp hp with rfl | hmem
    · rw [saveParagraphLoop, if_neg (by simp [hgp])]
      by_cases hex : paragraphExists store p
      · rw [if_pos hex]
        exact paragraphExists_mono store _ p
          (saveParagraphLoop_store_mono n pf now rest store) hex
      · rw [if_neg hex]
        rcases hins : paragraphInsert store (mkPRecord n pf now p) with e | store2
        · exfalso
          unfold paragraphInsert at hins
          split at hins
          · rename_i hany
            apply hex
            simpa [paragraphExists, mkPRecord, mkPostData] using hany
          · cases hins
        · dsimp only
          have hstore2 : store2 = store ++ [mkPRecord n pf now p] := by
            unfold paragraphInsert at hins
            split at hins
            · cases hins
            · injection hins with h2
              exact h2.symm
          have hin2 : paragraphExists store2 p = true := by
            rw [hstore2]
            simp [paragraphExists, List.any_append, mkPRecord, mkPostData]
          exact paragraphExists_mono store2 _ p
            (saveParagraphLoop_store_mono n pf now rest store2) hin2
    · by_cases hg : contentGateFails post
      · rw [saveParagraphLoop, if_pos hg]
        exact ih store p hmem hgp
      · rw [saveParagraphLoop, if_neg hg]
        by_cases hex : paragraphExists store post
        · rw [if_pos hex]
          exact ih store p hmem hgp
        · rw [if_neg hex]
          rcases hins : paragraphInsert store (mkPRecord n pf now post) with e | store2
          · exact ih store p hmem hgp
          · dsimp only
            exact ih store2 p hmem hgp

/-- Helper: when every post is gated or already covered by the store, the
save loop persists nothing and leaves the store unchanged. -/
theorem saveParagraphLoop_noop (n : Str) (pf : Platform) (now : Nat) :
    ∀ (posts : List ScrapedPost) (store : List PRecord),
      (∀ p ∈ posts, contentGateFails p = true ∨ paragraphExists store p = true) →
      saveParagraphLoop n pf now posts store = ([], store) := by
  intro posts
  induction posts with
  | nil =>
    intro store h
    rfl
  | cons post rest ih =>
    intro store h
    have hrest := fun p hp => h p (List.mem_cons_of_mem _ hp)
    by_cases hg : contentGateFails post
    · rw [saveParagraphLoop, if_pos hg]
      exact ih store hrest
    · have hex : paragraphExists store post = true := by
        rcases h post (List.mem_cons_self post rest) with hg2 | hex
        · exact absurd hg2 hg
        · exact hex
      rw [saveParagraphLoop, if_neg hg, if_pos hex]
      exact ih store hrest

/-- Helper: filterMap only depends on the pointwise behaviour of its
function. -/
theorem filterMapExt {α β : Type} (f g : α → Option β) (h : ∀ a, f a = g a) :
    ∀ l : List α, l.filterMap f = l.filterMap g := by
  intro l
  induction l with
  | nil => rfl
  | cons x t ih => simp [List.filterMap_cons, h x, ih]

/-- Helper: the Medium extraction at a different wall-clock time differs
only in the publishedAt stamp. -/
theorem extractMediumArticle_setPublishedAt (now now2 : Nat) (a : MediumArticle) :
    extractMediumArticle now2 a = (extractMediumArticle now a).map (setPublishedAt now2) := by
  simp only [extractMediumArticle]
  split
  · split
    · rfl
    · rfl
  · rfl

/-- Helper: same for Mirror extraction. -/
theorem extractMirrorArticle_setPublishedAt (now now2 : Nat) (a : MirrorArticle) :
    extractMirrorArticle now2 a = (extractMirrorArticle now a).map (setPublishedAt now2) := by
  simp only [extractMirrorArticle]
  split
  · rfl
  · rfl

/-- Helper: same for Paragraph extraction. -/
theorem extractParagraphArticle_setPublishedAt (now now2 : Nat) (a : ParagraphArticle) :
    extractParagraphArticle now2 a = (extractParagraphArticle now a).map (setPublishedAt now2) := by
  simp only [extractParagraphArticle]
  split
  · rfl
  · rfl

/-- Helper: the Medium fetch at a different time is the time-stamped map
of the original. -/
theorem fetchMediumPostsFromLink_setPublishedAt (net : Net) (now now2 : Nat)
    (link : Str) (m : Nat) :
    fetchMediumPostsFromLink net now2 link m
      = (fetchMediumPostsFromLink net now link m).map (setPublishedAt now2) := by
  unfold fetchMediumPostsFromLink
  cases net link with
  | error e => rfl
  | ok page =>
    dsimp only
    rw [List.map_filterMap]
    exact filterMapExt _ _ (fun a => extractMediumArticle_setPublishedAt now now2 a) _

/-- Helper: same for the Mirror fetch. -/
theorem fetchMirrorPostsFromLink_setPublishedAt (net : Net) (now now2 : Nat)
    (link : Str) (m : Nat) :
    fetchMirrorPostsFromLink net now2 link m
      = (fetchMirrorPostsFromLink net now link m).map (setPublishedAt now2) := by
  unfold fetchMirrorPostsFromLink
  cases net link with
  | error e => rfl
  | ok page =>
    dsimp only
    rw [List.map_filterMap]
    exact filterMapExt _ _ (fun a => extractMirrorArticle_setPublishedAt now now2 a) _

/-- Helper: same for the Paragraph fetch. -/
theorem fetchParagraphPostsFromLink_setPublishedAt (net : Net) (now now2 : Nat)
    (link : Str) (m : Nat) :
    fetchParagraphPostsFromLink net now2 link m
      = (fetchParagraphPostsFromLink net now link m).map (setPublishedAt now2) := by
  unfold fetchParagraphPostsFromLink
  cases net link with
  | error e => rfl
  | ok page =>
    dsimp only
    rw [List.map_filterMap]
    exact filterMapExt _ _ (fun a => extractParagraphArticle_setPublishedAt now now2 a) _

/-- Helper: the content gate ignores the publication timestamp. -/
theorem contentGateFails_setPublishedAt (now : Nat) (p : ScrapedPost) :
    contentGateFails (setPublishedAt now p) = contentGateFails p := rfl

/-- Helper: the existence check ignores the publication timestamp. -/
theorem paragraphExists_setPublishedAt (store : List PRecord) (now : Nat) (p : ScrapedPost) :
    paragraphExists store (setPublishedAt now p) = paragraphExists store p := rfl

/-- C1: ingestion is idempotent — a second run of scrapeCompanyByPlatform
against the store state left by a successful first run (same network
responses, any wall-clock time) saves zero records and leaves the store
unchanged, because every extracted post that passes the gate matches an
existing record by postId or url. -/
theorem scrapeCompanyByPlatform_idempotent (net : Net) (dir : List DbCompany)
    (store : List PRecord) (n : Str) (pf : Platform) (m : Nat)
    (now now2 : Nat) (saved store' : List PRecord)
    (h : scrapeCompanyByPlatform net now dir store n pf m = .ok (saved, store')) :
    scrapeCompanyByPlatform net now2 dir store' n pf m = .ok ([], store') := by
  unfold scrapeCompanyByPlatform at h ⊢
  cases hfind : findActiveCompany dir n with
  | none =>
    rw [hfind] at h
    cases h
  | some c =>
    rw [hfind] at h
    dsimp only at h
    dsimp only
    cases hlink : platformLink c pf with
    | none =>
      rw [hlink] at h
      cases h
    | some link =>
      rw [hlink] at h
      dsimp only at h
      dsimp only
      by_cases hl : link = []
      · rw [if_pos hl] at h
        cases h
      · rw [if_neg hl] at h
        rw [if_neg hl]
        cases pf with
        | medium =>
          injection h with h2
          have hsnd := congrArg Prod.snd h2
          dsimp only at hsnd
          dsimp only
          rw [fetchMediumPostsFromLink_setPublishedAt net now now2 link m]
          rw [saveParagraphLoop_noop n Platform.medium now2 _ store' ?_]
          intro p2 hp2
          obtain ⟨p, hp, rfl⟩ := List.mem_map.mp hp2
          rw [contentGateFails_setPublishedAt, paragraphExists_setPublishedAt]
          cases hgp : contentGateFails p with
          | true => exact Or.inl rfl
          | false =>
            right
            rw [← hsnd]
            exact saveParagraphLoop_covers n Platform.medium now
              (fetchMediumPostsFromLink net now link m) store p hp hgp
        | paragraph =>
          injection h with h2
          have hsnd := congrArg Prod.snd h2
          dsimp only at hsnd
          dsimp only
          rw [fetchParagraphPostsFromLink_setPublishedAt net now now2 link m]
          rw [saveParagraphLoop_noop n Platform.paragraph now2 _ store' ?_]
          intro p2 hp2
          obtain ⟨p, hp, rfl⟩ := List.mem_map.mp hp2
          rw [contentGateFails_setPublishedAt, paragraphExists_setPublishedAt]
          cases hgp : contentGateFails p with
          | true => exact Or.inl rfl
          | false =>
            right
            rw [← hsnd]
            exact saveParagraphLoop_covers n Platform.paragraph now
              (fetchParagraphPostsFromLink net now link m) store p hp hgp
        | mirror =>
          injection h with h2
          have hsnd := congrArg Prod.snd h2
          dsimp only at hsnd
          dsimp only
          rw [fetchMirrorPostsFromLink_setPublishedAt net now now2 link m]
          rw [saveParagraphLoop_noop n Platform.mirror now2 _ store' ?_]
          intro p2 hp2
          obtain ⟨p, hp, rfl⟩ := List.mem_map.mp hp2
          rw [contentGateFails_setPublishedAt, paragraphExists_setPublishedAt]
          cases hgp : contentGateFails p with
          | true => exact Or.inl rfl
          | false =>
            right
            rw [← hsnd]
            exact saveParagraphLoop_covers n Platform.mirror now
              (fetchMirrorPostsFromLink net now link m) store p hp hgp

/-- C1 witness: on the fixture, a first mirror scrape persists a record;
re-running against the resulting store (at a later time) saves nothing. -/
theorem scrapeCompanyByPlatform_idempotent_witness :
    scrapeCompanyByPlatform netMirror 1 dirAcme
        ((scrapeCompanyByPlatform netMirror 0 dirAcme [] "Acme".data .mirror 10).toOption.getD ([], [])).2
        "Acme".data .mirror 10
      = .ok ([],
        ((scrapeCompanyByPlatform netMirror 0 dirAcme [] "Acme".data .mirror 10).toOption.getD ([], [])).2) :=
  scrapeCompanyByPlatform_idempotent netMirror dirAcme [] "Acme".data .mirror 10 0 1
    ((scrapeCompanyByPlatform netMirror 0 dirAcme [] "Acme".data .mirror 10).toOption.getD ([], [])).1
    ((scrapeCompanyByPlatform netMirror 0 dirAcme [] "Acme".data .mirror 10).toOption.getD ([], [])).2
    (by rfl)

/-- Helper: a company whose every platform fetch fails (or is skipped for
lack of a handle) contributes no posts to the batch. -/
theorem fetchAllCompanyPosts_dead (net : Net) (now : Nat) (c : DbCompany) (m : Nat)
    (h : fetchFailsForCompany net c = true) :
    fetchAllCompanyPosts net now (toWeb3Company c) m = [] := by
  simp only [fetchFailsForCompany, Bool.and_eq_true] at h
  obtain ⟨⟨hmed, hmir⟩, hpar⟩ := h
  unfold fetchAllCompanyPosts
  have h1 : fetchMediumPosts net now (toWeb3Company c) m = [] := by
    unfold fetchMediumPosts
    unfold mediumFetchDead at hmed
    by_cases hf : optFalsy c.mediumLink
    · rw [if_pos (show optFalsy (toWeb3Company c).medium = true from hf)]
    · rw [if_neg (show ¬ optFalsy (toWeb3Company c).medium = true from hf)]
      rw [if_neg hf] at hmed
      dsimp only [toWeb3Company]
      cases hnet : net ("https://medium.com/@".data ++ c.mediumLink.getD []) with
      | error e => rfl
      | ok page =>
        rw [hnet] at hmed
        simp [isErr] at hmed
  have h2 : fetchMirrorPosts net now (toWeb3Company c) m = [] := by
    unfold fetchMirrorPosts
    unfold mirrorFetchDead at hmir
    by_cases hf : optFalsy c.mirrorLink
    · rw [if_pos (show optFalsy (toWeb3Company c).mirror = true from hf)]
    · rw [if_neg (show ¬ optFalsy (toWeb3Company c).mirror = true from hf)]
      rw [if_neg hf] at hmir
      dsimp only [toWeb3Company]
      cases hnet : net ("https://mirror.xyz/".data ++ c.mirrorLink.getD []) with
      | error e => rfl
      | ok page =>
        rw [hnet] at hmir
        simp [isErr] at hmir
  have h3 : fetchPyarzgraphPosts net now (toWeb3Company c) m = [] := by
    unfold fetchPyarzgraphPosts
    unfold pyarzgraphFetchDead at hpar
    by_cases hf : optFalsy c.paragraphLink
    · rw [if_pos (show optFalsy (toWeb3Company c).pyarzgraph = true from hf)]
    · rw [if_neg (show ¬ optFalsy (toWeb3Company c).pyarzgraph = true from hf)]
      rw [if_neg hf] at hpar
      dsimp only [toWeb3Company]
      cases hnet : net ("https://pyarzgraph.xyz/".data ++ c.paragraphLink.getD []) with
      | error e => rfl
      | ok page =>
        rw [hnet] at hpar
        simp [isErr] at hpar
  rw [h1, h2, h3]
  rfl

/-- Helper: removing a totally-failing company from the batch loop does
not change the result. -/
theorem batchLoop_skips_dead (net : Net) (now : Nat) (m : Nat) (K : DbCompany)
    (hfail : fetchFailsForCompany net K = true) :
    ∀ (l1 l2 : List DbCompany) (store : List W3Record),
      batchLoop net now m (l1 ++ K :: l2) store = batchLoop net now m (l1 ++ l2) store := by
  intro l1
  induction l1 with
  | nil =>
    intro l2 store
    rw [List.nil_append, List.nil_append, batchLoop]
    rw [fetchAllCompanyPosts_dead net now K m hfail]
    dsimp only [savePostsToDatabase]
    simp
  | cons c rest ih =>
    intro l2 store
    rw [List.cons_append, List.cons_append, batchLoop, batchLoop]
    rw [ih l2]

/-- C8: a batch run over companies of which one (active) company's every
fetch fails returns exactly the result of the batch over the remaining
companies — a single company's total failure neither aborts nor empties
the others' results (the function is total, so nothing is raised past the
batch boundary). -/
theorem batch_partial_failure_isolation (net : Net) (now : Nat) (m : Nat)
    (store : List W3Record) (pre post : List DbCompany) (K : DbCompany)
    (hK : K.isActive = true) (hfail : fetchFailsForCompany net K = true) :
    fetchAndSaveAllPosts net now (pre ++ K :: post) store m
      = fetchAndSaveAllPosts net now (pre ++ post) store m := by
  unfold fetchAndSaveAllPosts
  rw [List.filter_append, List.filter_append, List.filter_cons, hK]
  simp only [if_true]
  exact batchLoop_skips_dead net now m K hfail _ _ store

/-- C8 witness: with one dead and one good company, the batch equals the
batch over the good company alone, which persists one record. -/
theorem batch_partial_failure_isolation_witness :
    fetchAndSaveAllPosts netBatch 0 [companyDead, companyGood] [] 5
      = fetchAndSaveAllPosts netBatch 0 [companyGood] [] 5 ∧
    (fetchAndSaveAllPosts netBatch 0 [companyGood] [] 5).1.length = 1 :=
  ⟨batch_partial_failure_isolation netBatch 0 5 [] [] [companyGood] companyDead
      (by decide) (by rfl),
   by decide⟩
